import Mathlib

/-!
# Verification of the AutoSAR redaction & allowlisting engine

Shallow embedding of the redaction core of `app.py` (AWS variant) and of the
key-based redaction of `Azure/app.py`.  Machine text is modelled as `List Char`
(Python unicode strings), bytes as `List Nat` (each < 256 where produced by the
code).  HMAC-SHA256 (`hmac.new(..., hashlib.sha256)`) is embedded concretely so
that token digests can be computed and reasoned about.
-/

namespace AutoSAR

set_option maxRecDepth 200000

/-! ## 32-bit arithmetic helpers (Python ints truncated as SHA-256 requires) -/

def w32 (n : Nat) : Nat := n % 4294967296

def add32 (a b : Nat) : Nat := (a + b) % 4294967296

def rotr32 (a k : Nat) : Nat := w32 ((a >>> k) ||| (a <<< (32 - k)))

def shr32 (a k : Nat) : Nat := a >>> k

def not32 (a : Nat) : Nat := Nat.xor a 4294967295

/-! ## SHA-256 (FIPS 180-4), as used by `hashlib.sha256` -/

def shaK : List Nat :=
  [1116352408, 1899447441, 3049323471, 3921009573, 961987163,
   1508970993, 2453635748, 2870763221, 3624381080, 310598401,
   607225278, 1426881987, 1925078388, 2162078206, 2614888103,
   3248222580, 3835390401, 4022224774, 264347078, 604807628,
   770255983, 1249150122, 1555081692, 1996064986, 2554220882,
   2821834349, 2952996808, 3210313671, 3336571891, 3584528711,
   113926993, 338241895, 666307205, 773529912, 1294757372,
   1396182291, 1695183700, 1986661051, 2177026350, 2456956037,
   2730485921, 2820302411, 3259730800, 3345764771, 3516065817,
   3600352804, 4094571909, 275423344, 430227734, 506948616,
   659060556, 883997877, 958139571, 1322822218, 1537002063,
   1747873779, 1955562222, 2024104815, 2227730452, 2361852424,
   2428436474, 2756734187, 3204031479, 3329325298]

def bigSigma0 (x : Nat) : Nat := Nat.xor (rotr32 x 2) (Nat.xor (rotr32 x 13) (rotr32 x 22))

def bigSigma1 (x : Nat) : Nat := Nat.xor (rotr32 x 6) (Nat.xor (rotr32 x 11) (rotr32 x 25))

def smallSigma0 (x : Nat) : Nat := Nat.xor (rotr32 x 7) (Nat.xor (rotr32 x 18) (shr32 x 3))

def smallSigma1 (x : Nat) : Nat := Nat.xor (rotr32 x 17) (Nat.xor (rotr32 x 19) (shr32 x 10))

def chFn (x y z : Nat) : Nat := Nat.xor (Nat.land x y) (Nat.land (not32 x) z)

def majFn (x y z : Nat) : Nat :=
  Nat.xor (Nat.land x y) (Nat.xor (Nat.land x z) (Nat.land y z))

/-- Message-schedule extension: `recent` holds the last 16 schedule words, most
recent first; `acc` collects the freshly produced words in reverse. -/
def extendSched : Nat → List Nat → List Nat → List Nat
  | 0, _, acc => acc.reverse
  | t + 1, recent, acc =>
      let wNew := (smallSigma1 (recent.getD 1 0) + recent.getD 6 0 +
                   smallSigma0 (recent.getD 14 0) + recent.getD 15 0) % 4294967296
      extendSched t (wNew :: recent.take 15) (wNew :: acc)

/-- The 64-word schedule of one 16-word block. -/
def schedule (block : List Nat) : List Nat :=
  block ++ extendSched 48 block.reverse []

/-- The eight working variables of the SHA-256 compression. -/
structure SHAState where
  a : Nat
  b : Nat
  c : Nat
  d : Nat
  e : Nat
  f : Nat
  g : Nat
  h : Nat

def shaInit : SHAState :=
  ⟨1779033703, 3144134277, 1013904242, 2773480762,
   1359893119, 2600822924, 528734635, 1541459225⟩

def shaRound (s : SHAState) (kw : Nat × Nat) : SHAState :=
  let t1 := (s.h + bigSigma1 s.e + chFn s.e s.f s.g + kw.1 + kw.2) % 4294967296
  let t2 := (bigSigma0 s.a + majFn s.a s.b s.c) % 4294967296
  ⟨(t1 + t2) % 4294967296, s.a, s.b, s.c, (s.d + t1) % 4294967296, s.e, s.f, s.g⟩

def compress (s : SHAState) (block : List Nat) : SHAState :=
  let t := (shaK.zip (schedule block)).foldl shaRound s
  ⟨add32 s.a t.a, add32 s.b t.b, add32 s.c t.c, add32 s.d t.d,
   add32 s.e t.e, add32 s.f t.f, add32 s.g t.g, add32 s.h t.h⟩

/-- Big-endian 4-byte grouping of the padded message. -/
def bytesToWords : List Nat → List Nat
  | b0 :: b1 :: b2 :: b3 :: rest =>
      (b0 * 16777216 + b1 * 65536 + b2 * 256 + b3) :: bytesToWords rest
  | _ => []

/-- The 8-byte big-endian bit-length field of the padding. -/
def lenBytes (n : Nat) : List Nat :=
  [(n >>> 56) % 256, (n >>> 48) % 256, (n >>> 40) % 256, (n >>> 32) % 256,
   (n >>> 24) % 256, (n >>> 16) % 256, (n >>> 8) % 256, n % 256]

def padMsg (m : List Nat) : List Nat :=
  let L := m.length
  m ++ 128 :: List.replicate ((119 - L % 64) % 64) 0 ++ lenBytes (8 * L)

/-- Split the (64-byte-block-padded) word list into 16-word blocks. -/
def chunk16 : List Nat → List (List Nat)
  | w0 :: w1 :: w2 :: w3 :: w4 :: w5 :: w6 :: w7 ::
    w8 :: w9 :: w10 :: w11 :: w12 :: w13 :: w14 :: w15 :: rest =>
      [w0, w1, w2, w3, w4, w5, w6, w7, w8, w9, w10, w11, w12, w13, w14, w15] ::
        chunk16 rest
  | _ => []

def word4 (wd : Nat) : List Nat :=
  [(wd >>> 24) % 256, (wd >>> 16) % 256, (wd >>> 8) % 256, wd % 256]

def stateBytes (s : SHAState) : List Nat :=
  word4 s.a ++ word4 s.b ++ word4 s.c ++ word4 s.d ++
  word4 s.e ++ word4 s.f ++ word4 s.g ++ word4 s.h

/-- `hashlib.sha256(m).digest()` as a list of 32 bytes. -/
def sha256 (m : List Nat) : List Nat :=
  stateBytes ((chunk16 (bytesToWords (padMsg m))).foldl compress shaInit)

/-! ## HMAC (RFC 2104), as used by `hmac.new(key, msg, hashlib.sha256)` -/

def hmacSha256 (key msg : List Nat) : List Nat :=
  let k0 := if 64 < key.length then sha256 key else key
  let kp := k0 ++ List.replicate (64 - k0.length) 0
  sha256 ((kp.map fun b => Nat.xor b 92) ++
          sha256 ((kp.map fun b => Nat.xor b 54) ++ msg))

/-! ## Hex formatting (`.hexdigest()`) and UTF-8 (`str.encode()`) -/

/-- One lowercase hexadecimal digit (out-of-range values clamp to '0';
`hexdigest` only ever formats nibbles 0-15). -/
def hexDigitChar : Nat → Char
  | 0 => '0'
  | 1 => '1'
  | 2 => '2'
  | 3 => '3'
  | 4 => '4'
  | 5 => '5'
  | 6 => '6'
  | 7 => '7'
  | 8 => '8'
  | 9 => '9'
  | 10 => 'a'
  | 11 => 'b'
  | 12 => 'c'
  | 13 => 'd'
  | 14 => 'e'
  | 15 => 'f'
  | _ => '0'

def hexOfBytes (bs : List Nat) : List Char :=
  bs.foldr (fun b acc => hexDigitChar (b / 16) :: hexDigitChar (b % 16) :: acc) []

def utf8Char (c : Char) : List Nat :=
  let n := c.toNat
  if n < 128 then [n]
  else if n < 2048 then [192 + n / 64, 128 + n % 64]
  else if n < 65536 then [224 + n / 4096, 128 + (n / 64) % 64, 128 + n % 64]
  else [240 + n / 262144, 128 + (n / 4096) % 64, 128 + (n / 64) % 64, 128 + n % 64]

def utf8 (s : List Char) : List Nat :=
  s.foldr (fun c acc => utf8Char c ++ acc) []

def strBytes (s : String) : List Nat := utf8 s.data

/-! ## The tokenizer `_stable_tag` -/

/-- `_stable_tag(kind, text, n=6)`: the keyed token `[KIND:digest]` with
`digest = hmac.new(_SECRET, text.encode(), hashlib.sha256).hexdigest()[:6]`.
The process secret is passed explicitly (`secret`). -/
def stableTag (secret : List Nat) (kind text : List Char) : List Char :=
  '[' :: kind ++ ':' :: (hexOfBytes (hmacSha256 secret (utf8 text))).take 6 ++ [']']

/-- `_SECRET = os.environ.get("REDACTION_SECRET", "project-secret").encode()`:
the key material as a function of the (optional) environment value. -/
def secretFromEnv (env : Option String) : List Nat :=
  strBytes (env.getD "project-secret")

/-- The key the module uses when `REDACTION_SECRET` is not set. -/
def defaultSecret : List Nat := strBytes "project-secret"

/-! ## A backtracking regex engine with Python `re` semantics

Alternatives are tried in written order, `*`/`+`/`{m,n}` are greedy with
backtracking, `*?` is lazy, `\b` consults the character to the left (`prev`)
and the head of the remaining input.  A match succeeds as soon as the
continuation `k` succeeds, which reproduces Python's first-match (not
longest-match) semantics. -/

inductive RE where
  | cls (p : Char → Bool)
  | eps
  | seq (a b : RE)
  | alt (a b : RE)
  | bnd
  | starG (r : RE)
  | starL (r : RE)

def isWordChar (c : Char) : Bool :=
  ('a' ≤ c && c ≤ 'z') || ('A' ≤ c && c ≤ 'Z') || ('0' ≤ c && c ≤ '9') || c = '_'

def atBoundary (prev : Option Char) (inp : List Char) : Bool :=
  (match prev with | some c => isWordChar c | none => false) !=
  (match inp with | c :: _ => isWordChar c | [] => false)

/-- A size measure on patterns, used only to pick a sufficient fuel bound. -/
def reSize : RE → Nat
  | .cls _ => 1
  | .eps => 1
  | .bnd => 1
  | .seq a b => reSize a + reSize b + 1
  | .alt a b => reSize a + reSize b + 1
  | .starG r => reSize r + 1
  | .starL r => reSize r + 1

/-- The matcher: `k` receives the new left-context character and the remaining
input.  `fuel` decreases on every recursive call (so the definition is
structurally recursive and evaluates inside the kernel); star bodies of the
patterns below always consume at least one character, so a fuel of
`(reSize re + 2) * (length + 2)` can never run out. -/
def mt : Nat → RE → Option Char → List Char →
    (Option Char → List Char → Option (List Char)) → Option (List Char)
  | 0, _, _, _, _ => none
  | f + 1, re, prev, inp, k =>
      match re with
      | .cls p =>
          match inp with
          | [] => none
          | c :: cs => if p c then k (some c) cs else none
      | .eps => k prev inp
      | .seq a b => mt f a prev inp (fun p' r => mt f b p' r k)
      | .alt a b =>
          match mt f a prev inp k with
          | some res => some res
          | none => mt f b prev inp k
      | .bnd => if atBoundary prev inp then k prev inp else none
      | .starG r =>
          match
            mt f r prev inp (fun p' rest =>
              if rest.length < inp.length then mt f (.starG r) p' rest k else none)
          with
          | some res => some res
          | none => k prev inp
      | .starL r =>
          match k prev inp with
          | some res => some res
          | none =>
              mt f r prev inp (fun p' rest =>
                if rest.length < inp.length then mt f (.starL r) p' rest k else none)

/-- Try to match `re` at the current position; `some rest` means a match that
leaves `rest` unconsumed. -/
def mtTop (re : RE) (prev : Option Char) (s : List Char) : Option (List Char) :=
  mt ((reSize re + 2) * (s.length + 2)) re prev s (fun _ rest => some rest)

/-- Leftmost match: returns `(gap, matched, rest)` — the text before the match,
the matched text and the text after it. -/
def findAux (re : RE) (prev : Option Char) (s : List Char) :
    Option (List Char × List Char × List Char) :=
  match mtTop re prev s with
  | some rest => some ([], s.take (s.length - rest.length), rest)
  | none =>
      match s with
      | [] => none
      | c :: cs =>
          match findAux re (some c) cs with
          | some (g, m, r) => some (c :: g, m, r)
          | none => none

/-- `re.sub` with a replacement function: replace every non-overlapping
leftmost match, scanning the original text (replacements are not rescanned by
the same pattern; boundary context comes from the original characters). -/
def subFuel (re : RE) (f : List Char → List Char) :
    Nat → Option Char → List Char → List Char
  | 0, _, s => s
  | fu + 1, prev, s =>
      match findAux re prev s with
      | none => s
      | some (g, m, r) =>
          g ++ f m ++
            subFuel re f fu (match m.getLast? with | some c => some c | none => prev) r

def reSub (re : RE) (f : List Char → List Char) (s : List Char) : List Char :=
  subFuel re f (s.length + 1) none s

/-! ## The seven compiled patterns of `app.py` -/

def chrRE (c : Char) : RE := .cls (fun x => x = c)

def rePlus (r : RE) : RE := .seq r (.starG r)

def reOpt (r : RE) : RE := .alt r .eps

def repN : Nat → RE → RE
  | 0, _ => .eps
  | n + 1, r => .seq r (repN n r)

def optChain : Nat → RE → RE
  | 0, _ => .eps
  | n + 1, r => reOpt (.seq r (optChain n r))

/-- Greedy `r{m, m+extra}`. -/
def repRange (m extra : Nat) (r : RE) : RE := .seq (repN m r) (optChain extra r)

/-- Greedy `r{m,}`. -/
def atLeast (m : Nat) (r : RE) : RE := .seq (repN m r) (.starG r)

def isDigitC (c : Char) : Bool := '0' ≤ c && c ≤ '9'

def isAlphaC (c : Char) : Bool := ('a' ≤ c && c ≤ 'z') || ('A' ≤ c && c ≤ 'Z')

def digitRE : RE := .cls isDigitC

def alphaRE : RE := .cls isAlphaC

def isSpaceC (c : Char) : Bool :=
  c = ' ' || c = '\t' || c = '\n' || c = '\r' || c = '\x0b' || c = '\x0c'

/-- Case-insensitive literal character (`re.IGNORECASE`), `c` lowercase. -/
def ciRE (c : Char) : RE := .cls (fun x => x.toLower = c)

/-- `[A-Za-z0-9._%+-]+@[A-Za-z0-9.-]+\.[A-Za-z]{2,}` -/
def emailRe : RE :=
  .seq (rePlus (.cls fun c => isAlphaC c || isDigitC c || c = '.' || c = '_' ||
                              c = '%' || c = '+' || c = '-'))
  (.seq (chrRE '@')
  (.seq (rePlus (.cls fun c => isAlphaC c || isDigitC c || c = '.' || c = '-'))
  (.seq (chrRE '.') (atLeast 2 alphaRE))))

/-- `\b\d{3}-\d{2}-\d{4}\b` -/
def ssnRe : RE :=
  .seq .bnd (.seq (repN 3 digitRE) (.seq (chrRE '-')
    (.seq (repN 2 digitRE) (.seq (chrRE '-') (.seq (repN 4 digitRE) .bnd)))))

/-- `\b(?:\d[ -]*?){13,19}\b` -/
def cardRe : RE :=
  .seq .bnd (.seq (repRange 13 6 (.seq digitRE (.starL (.cls fun c => c = ' ' || c = '-')))) .bnd)

/-- `\b\d{6,18}\b` -/
def acctRe : RE := .seq .bnd (.seq (repRange 6 12 digitRE) .bnd)

/-- `25[0-5]|2[0-4]\d|[01]?\d?\d`, alternatives in written order. -/
def ipOctet : RE :=
  .alt (.seq (chrRE '2') (.seq (chrRE '5') (.cls fun c => '0' ≤ c && c ≤ '5')))
  (.alt (.seq (chrRE '2') (.seq (.cls fun c => '0' ≤ c && c ≤ '4') digitRE))
        (.seq (reOpt (.cls fun c => c = '0' || c = '1')) (.seq (reOpt digitRE) digitRE)))

/-- `\b(?:(?:25[0-5]|2[0-4]\d|[01]?\d?\d)\.){3}(?:25[0-5]|2[0-4]\d|[01]?\d?\d)\b` -/
def ipRe : RE :=
  .seq .bnd (.seq (repN 3 (.seq ipOctet (chrRE '.'))) (.seq ipOctet .bnd))

/-- `\bhttps?://\S+\b` with `re.IGNORECASE`. -/
def urlRe : RE :=
  .seq .bnd (.seq (ciRE 'h') (.seq (ciRE 't') (.seq (ciRE 't') (.seq (ciRE 'p')
  (.seq (reOpt (ciRE 's')) (.seq (chrRE ':') (.seq (chrRE '/') (.seq (chrRE '/')
  (.seq (rePlus (.cls fun c => !isSpaceC c)) .bnd)))))))))

/-- `\b([A-Za-z0-9-]+\.)+[A-Za-z]{2,}\b` -/
def domainRe : RE :=
  .seq .bnd (.seq (rePlus (.seq (rePlus (.cls fun c => isAlphaC c || isDigitC c || c = '-'))
                                (chrRE '.')))
  (.seq (atLeast 2 alphaRE) .bnd))

/-! ## The string scrubber `_scrub_str` -/

/-- The pattern library in the order `_scrub_str` applies it. -/
def patternLib : List (RE × List Char) :=
  [(emailRe, "EMAIL".data), (ssnRe, "SSN".data), (cardRe, "CARD".data),
   (acctRe, "ACCT".data), (ipRe, "IP".data), (urlRe, "URL".data),
   (domainRe, "DOMAIN".data)]

/-- `_scrub_str`: the seven `re.sub` passes in source order, each over the
previous pass's output. -/
def scrubStr (secret : List Nat) (s : List Char) : List Char :=
  patternLib.foldl (fun acc p => reSub p.1 (stableTag secret p.2) acc) s

/-! ## JSON-like records (`Record` in the spec; Python dict/list/str/num/bool/None)

Numbers are modelled as integers (the claims under verification involve no
float arithmetic); keys and strings are `List Char`. -/

inductive Json where
  | null
  | bool (b : Bool)
  | num (n : Int)
  | str (s : List Char)
  | arr (l : List Json)
  | obj (l : List (List Char × Json))

/-! ## The structural walker `scrub` -/

mutual

/-- `scrub`: recursively apply `_scrub_str` to every string leaf; `None`,
numbers and booleans pass through; lists and dicts are rebuilt in order. -/
def scrubJson (secret : List Nat) : Json → Json
  | .null => .null
  | .bool b => .bool b
  | .num n => .num n
  | .str s => .str (scrubStr secret s)
  | .arr l => .arr (scrubArr secret l)
  | .obj l => .obj (scrubObj secret l)

def scrubArr (secret : List Nat) : List Json → List Json
  | [] => []
  | x :: xs => scrubJson secret x :: scrubArr secret xs

def scrubObj (secret : List Nat) :
    List (List Char × Json) → List (List Char × Json)
  | [] => []
  | (k, v) :: xs => (k, scrubJson secret v) :: scrubObj secret xs

end

/-! ## The field allowlist -/

def ALLOWED_FIELDS : List (List Char) :=
  ["case_id".data, "summary".data, "timeline".data, "indicators".data,
   "amount_usd".data, "detected_by".data, "actions_taken".data, "date".data]

/-- `allowlist(d) = {k: d[k] for k in d if k in ALLOWED_FIELDS}`: keep the
key/value pairs whose key is allowed, in insertion order. -/
def allowlistFn (l : List (List Char × Json)) : List (List Char × Json) :=
  l.filter fun p => decide (p.1 ∈ ALLOWED_FIELDS)

/-! ## `json.dumps(..., ensure_ascii=False)` with default separators -/

def escChar (c : Char) : List Char :=
  if c = '"' then ['\\', '"']
  else if c = '\\' then ['\\', '\\']
  else if c = '\n' then ['\\', 'n']
  else if c = '\t' then ['\\', 't']
  else if c = '\r' then ['\\', 'r']
  else if c = '\x08' then ['\\', 'b']
  else if c = '\x0c' then ['\\', 'f']
  else if c.toNat < 32 then
    ['\\', 'u', '0', '0', hexDigitChar (c.toNat / 16), hexDigitChar (c.toNat % 16)]
  else [c]

def dumpStrLit (s : List Char) : List Char :=
  '"' :: s.foldr (fun c acc => escChar c ++ acc) ['"']

mutual

def dumps : Json → List Char
  | .null => "null".data
  | .bool b => if b then "true".data else "false".data
  | .num n => (toString n).data
  | .str s => dumpStrLit s
  | .arr l => '[' :: dumpsArr l ++ [']']
  | .obj l => '{' :: dumpsObj l ++ ['}']

def dumpsArr : List Json → List Char
  | [] => []
  | [x] => dumps x
  | x :: y :: xs => dumps x ++ ',' :: ' ' :: dumpsArr (y :: xs)

def dumpsObj : List (List Char × Json) → List Char
  | [] => []
  | [(k, v)] => dumpStrLit k ++ ':' :: ' ' :: dumps v
  | (k, v) :: y :: xs => dumpStrLit k ++ ':' :: ' ' :: dumps v ++ ',' :: ' ' :: dumpsObj (y :: xs)

end

/-! ## `json.loads` (the fragment the repository feeds it: objects, arrays,
strings, integers, literals; a failure — modelled as `none` — is what Python
raises as `json.JSONDecodeError`) -/

def isJsonWs (c : Char) : Bool := c = ' ' || c = '\t' || c = '\n' || c = '\r'

def skipWs : List Char → List Char
  | [] => []
  | c :: cs => if isJsonWs c then skipWs cs else c :: cs

def hexVal (x : Char) : Option Nat :=
  if isDigitC x then some (x.toNat - 48)
  else if 'a' ≤ x && x ≤ 'f' then some (x.toNat - 87)
  else if 'A' ≤ x && x ≤ 'F' then some (x.toNat - 55)
  else none

def escOf (e : Char) : Option Char :=
  if e = '"' then some '"'
  else if e = '\\' then some '\\'
  else if e = '/' then some '/'
  else if e = 'b' then some '\x08'
  else if e = 'f' then some '\x0c'
  else if e = 'n' then some '\n'
  else if e = 'r' then some '\r'
  else if e = 't' then some '\t'
  else none

def parseStrBody : List Char → Option (List Char × List Char)
  | [] => none
  | '"' :: rest => some ([], rest)
  | '\\' :: 'u' :: a :: b :: c :: d :: rest =>
      (match hexVal a, hexVal b, hexVal c, hexVal d with
       | some x, some y, some z, some w =>
           match parseStrBody rest with
           | some (s, r) => some (Char.ofNat (x * 4096 + y * 256 + z * 16 + w) :: s, r)
           | none => none
       | _, _, _, _ => none)
  | '\\' :: e :: rest =>
      (match escOf e with
       | some c =>
           match parseStrBody rest with
           | some (s, r) => some (c :: s, r)
           | none => none
       | none => none)
  | c :: rest =>
      if c.toNat < 32 then none
      else
        match parseStrBody rest with
        | some (s, r) => some (c :: s, r)
        | none => none

def parseDigits : List Char → Nat → Option (Nat × List Char)
  | [], acc => some (acc, [])
  | c :: cs, acc =>
      if isDigitC c then parseDigits cs (acc * 10 + (c.toNat - 48))
      else some (acc, c :: cs)

def parseIntLit (s : List Char) : Option (Int × List Char) :=
  let (neg, s') := match s with
    | '-' :: rest => (true, rest)
    | _ => (false, s)
  match s' with
  | c :: _ =>
      if isDigitC c then
        match parseDigits s' 0 with
        | some (n, rest) =>
            match rest with
            | '.' :: _ => none
            | 'e' :: _ => none
            | 'E' :: _ => none
            | _ => some (if neg then -(n : Int) else (n : Int), rest)
        | none => none
      else none
  | [] => none

def startsWithLit : List Char → List Char → Option (List Char)
  | [], s => some s
  | _ :: _, [] => none
  | a :: as, b :: bs => if a = b then startsWithLit as bs else none

mutual

def parseVal (fuel : Nat) (s : List Char) : Option (Json × List Char) :=
  match fuel with
  | 0 => none
  | f + 1 =>
      match skipWs s with
      | [] => none
      | c :: cs =>
          if c = '{' then
            match skipWs cs with
            | '}' :: rest => some (.obj [], rest)
            | cs' => match parseMembers f cs' with
                     | some (l, rest) => some (.obj l, rest)
                     | none => none
          else if c = '[' then
            match skipWs cs with
            | ']' :: rest => some (.arr [], rest)
            | cs' => match parseItems f cs' with
                     | some (l, rest) => some (.arr l, rest)
                     | none => none
          else if c = '"' then
            match parseStrBody cs with
            | some (str, rest) => some (.str str, rest)
            | none => none
          else if c = 't' then
            match startsWithLit "true".data (c :: cs) with
            | some rest => some (.bool true, rest)
            | none => none
          else if c = 'f' then
            match startsWithLit "false".data (c :: cs) with
            | some rest => some (.bool false, rest)
            | none => none
          else if c = 'n' then
            match startsWithLit "null".data (c :: cs) with
            | some rest => some (.null, rest)
            | none => none
          else
            match parseIntLit (c :: cs) with
            | some (n, rest) => some (.num n, rest)
            | none => none

def parseMembers (fuel : Nat) (s : List Char) : Option (List (List Char × Json) × List Char) :=
  match fuel with
  | 0 => none
  | f + 1 =>
      match skipWs s with
      | '"' :: cs =>
          match parseStrBody cs with
          | some (k, rest) =>
              match skipWs rest with
              | ':' :: rest' =>
                  match parseVal f rest' with
                  | some (v, rest'') =>
                      (match skipWs rest'' with
                       | ',' :: rest3 =>
                           match parseMembers f rest3 with
                           | some (l, r) => some ((k, v) :: l, r)
                           | none => none
                       | '}' :: rest3 => some ([(k, v)], rest3)
                       | _ => none)
                  | none => none
              | _ => none
          | none => none
      | _ => none

def parseItems (fuel : Nat) (s : List Char) : Option (List Json × List Char) :=
  match fuel with
  | 0 => none
  | f + 1 =>
      match parseVal f s with
      | some (v, rest) =>
          (match skipWs rest with
           | ',' :: rest' =>
               match parseItems f rest' with
               | some (l, r) => some (v :: l, r)
               | none => none
           | ']' :: rest' => some ([v], rest')
           | _ => none)
      | none => none

end

/-- `json.loads`: parse a complete JSON document; `none` models a raised
`json.JSONDecodeError`. -/
def loads (s : List Char) : Option Json :=
  match parseVal (s.length + 1) s with
  | some (j, rest) => if skipWs rest = [] then some j else none
  | none => none

/-! ## The safe-payload builder `make_safe_payload` -/

/-- The dict path of `make_safe_payload` (input already structured):
`json.dumps(scrub(allowlist(data if isinstance(data, dict) else {})), ensure_ascii=False)`. -/
def makeSafePayloadJson (secret : List Nat) (j : Json) : List Char :=
  dumps (scrubJson secret (.obj (allowlistFn (match j with | .obj l => l | _ => []))))

/-- The string path of `make_safe_payload`: `json.loads` first; a parse
failure propagates as an exception (`none`). -/
def makeSafePayloadStr (secret : List Nat) (s : List Char) : Option (List Char) :=
  match loads s with
  | some j => some (makeSafePayloadJson secret j)
  | none => none

/-! ## The Azure variant: `local_guardrail_redact_json` (`src/Azure/app.py`) -/

def SENSITIVE_KEYS : List (List Char) :=
  ["account_id".data, "account_number".data, "card_number".data, "ssn".data,
   "email".data, "ip_address".data, "url".data, "domain".data, "name".data,
   "linked_accounts".data, "transaction_id".data]

def toLowerL (s : List Char) : List Char := s.map Char.toLower

def toUpperL (s : List Char) : List Char := s.map Char.toUpper

/-- `f"[{k.upper()}_REDACTED]"` -/
def keyPlaceholder (k : List Char) : List Char :=
  '[' :: toUpperL k ++ "_REDACTED]".data

mutual

/-- The inner `redact` of `local_guardrail_redact_json`: replace values whose
key (lowercased) is sensitive by the key placeholder; recurse into other dict
values and into lists; return strings (and all other scalars) unchanged. -/
def redact : Json → Json
  | .null => .null
  | .bool b => .bool b
  | .num n => .num n
  | .str s => .str s
  | .arr l => .arr (redactArr l)
  | .obj l => .obj (redactPairs l)

def redactArr : List Json → List Json
  | [] => []
  | x :: xs => redact x :: redactArr xs

def redactPairs : List (List Char × Json) → List (List Char × Json)
  | [] => []
  | (k, v) :: xs =>
      (k, if toLowerL k ∈ SENSITIVE_KEYS then .str (keyPlaceholder k) else redact v) ::
        redactPairs xs

end

/-! ## Auxiliary notions used only by theorem statements -/

/-- `small` occurs at the head of `big`. -/
def startsSeg : List Char → List Char → Bool
  | [], _ => true
  | _ :: _, [] => false
  | a :: as, b :: bs => a == b && startsSeg as bs

/-- `small` occurs somewhere inside `big` (Python `small in big`). -/
def containsSeg (small : List Char) : List Char → Bool
  | [] => startsSeg small []
  | c :: cs => startsSeg small (c :: cs) || containsSeg small cs

/-- A lowercase hexadecimal digit, the alphabet of `hexdigest()`. -/
def isLowerHex (c : Char) : Bool := isDigitC c || ('a' ≤ c && c ≤ 'f')

/-- The digest part of a token: `hexdigest()[:6]` of the keyed MAC. -/
def digestChars (secret : List Nat) (text : List Char) : List Char :=
  (hexOfBytes (hmacSha256 secret (utf8 text))).take 6

mutual

/-- The shape of a record: string content erased, everything else kept.
Two values have the same skeleton iff they have the same tree structure —
the same key lists in order, the same sequence lengths and order, and
identical non-string leaves. -/
def skeleton : Json → Json
  | .null => .null
  | .bool b => .bool b
  | .num n => .num n
  | .str _ => .str []
  | .arr l => .arr (skelArr l)
  | .obj l => .obj (skelObj l)

def skelArr : List Json → List Json
  | [] => []
  | x :: xs => skeleton x :: skelArr xs

def skelObj : List (List Char × Json) → List (List Char × Json)
  | [] => []
  | (k, v) :: xs => (k, skeleton v) :: skelObj xs

end

/-! ## Helper lemmas (shared) -/

theorem subFuel_eq_of_find_none (re : RE) (f : List Char → List Char) (fu : Nat)
    (prev : Option Char) (s : List Char) (h : findAux re prev s = none) :
    subFuel re f fu prev s = s := by
  cases fu with
  | zero => rfl
  | succ n => simp [subFuel, h]

theorem reSub_eq_of_find_none (re : RE) (f : List Char → List Char) (s : List Char)
    (h : findAux re none s = none) : reSub re f s = s :=
  subFuel_eq_of_find_none re f (s.length + 1) none s h

theorem isLowerHex_hexDigitChar : ∀ n : Nat, isLowerHex (hexDigitChar n) = true
  | 0  => rfl
  | 1  => rfl
  | 2  => rfl
  | 3  => rfl
  | 4  => rfl
  | 5  => rfl
  | 6  => rfl
  | 7  => rfl
  | 8  => rfl
  | 9  => rfl
  | 10 => rfl
  | 11 => rfl
  | 12 => rfl
  | 13 => rfl
  | 14 => rfl
  | 15 => rfl
  | _ + 16 => rfl

theorem hexOfBytes_cons (b : Nat) (bs : List Nat) :
    hexOfBytes (b :: bs) = hexDigitChar (b / 16) :: hexDigitChar (b % 16) :: hexOfBytes bs := rfl

theorem isLowerHex_of_mem_hexOfBytes :
    ∀ (bs : List Nat) (c : Char), c ∈ hexOfBytes bs → isLowerHex c = true := by
  intro bs
  induction bs with
  | nil => intro c hc; simp [hexOfBytes] at hc
  | cons b bs ih =>
      intro c hc
      rw [hexOfBytes_cons] at hc
      rcases List.mem_cons.mp hc with rfl | hc'
      · exact isLowerHex_hexDigitChar _
      · rcases List.mem_cons.mp hc' with rfl | hc''
        · exact isLowerHex_hexDigitChar _
        · exact ih c hc''

theorem hexOfBytes_length (bs : List Nat) : (hexOfBytes bs).length = 2 * bs.length := by
  induction bs with
  | nil => rfl
  | cons b bs ih => rw [hexOfBytes_cons]; simp [ih]; omega

theorem stateBytes_length (s : SHAState) : (stateBytes s).length = 32 := by
  simp [stateBytes, word4]

theorem sha256_length (m : List Nat) : (sha256 m).length = 32 := stateBytes_length _

theorem hmacSha256_length (k m : List Nat) : (hmacSha256 k m).length = 32 := sha256_length _

theorem digestChars_length (secret : List Nat) (text : List Char) :
    (digestChars secret text).length = 6 := by
  rw [digestChars, List.length_take, hexOfBytes_length, hmacSha256_length]
  decide

theorem digestChars_lower_hex (secret : List Nat) (text : List Char) :
    ∀ c ∈ digestChars secret text, isLowerHex c = true := by
  intro c hc
  exact isLowerHex_of_mem_hexOfBytes _ c (List.take_subset _ _ hc)

mutual

theorem skeleton_scrubJson (secret : List Nat) :
    (j : Json) → skeleton (scrubJson secret j) = skeleton j
  | .null => rfl
  | .bool _ => rfl
  | .num _ => rfl
  | .str _ => rfl
  | .arr l => by rw [scrubJson, skeleton, skeleton, skeleton_scrubArr secret l]
  | .obj l => by rw [scrubJson, skeleton, skeleton, skeleton_scrubObj secret l]

theorem skeleton_scrubArr (secret : List Nat) :
    (l : List Json) → skelArr (scrubArr secret l) = skelArr l
  | [] => rfl
  | x :: xs => by
      rw [scrubArr, skelArr, skelArr, skeleton_scrubJson secret x, skeleton_scrubArr secret xs]

theorem skeleton_scrubObj (secret : List Nat) :
    (l : List (List Char × Json)) → skelObj (scrubObj secret l) = skelObj l
  | [] => rfl
  | (k, v) :: xs => by
      rw [scrubObj, skelObj, skelObj, skeleton_scrubJson secret v, skeleton_scrubObj secret xs]

end

/-! ## Claim C1 — no leakage -/

/-- The summary value: an SSN occurrence the scrubber matches, plus the same
digits embedded between word characters, where `\b` prevents every pattern
from matching. -/
def leakVal : List Char := "SSN 123-45-6789 seen in x123-45-6789y".data

def leakRecord : Json := .obj [("summary".data, .str leakVal)]

/-- C1 (refuted — code bug): the SSN pattern matches `123-45-6789` inside the
input value, yet the SafePayload produced by `make_safe_payload` still
contains that exact matched substring (a second, word-embedded occurrence is
matched by no pattern because of the `\b` anchors and survives verbatim). -/
theorem ssn_leaks_into_safe_payload :
    (findAux ssnRe none leakVal).map (fun r => r.2.1) = some "123-45-6789".data ∧
    containsSeg "123-45-6789".data (makeSafePayloadJson defaultSecret leakRecord) = true ∧
    makeSafePayloadJson defaultSecret leakRecord =
      '{' :: "\"summary\": \"SSN [SSN:b87d0a] seen in x123-45-6789y\"".data ++ ['}'] :=
  ⟨by decide, by decide, by decide⟩

/-! ## Claim C2 — fail-safe parse -/

/-- C2 (refuted — code bug): `make_safe_payload` calls `json.loads` with no
handler, so the unparseable text makes it raise (modelled as `none`) instead
of returning the serialization of an empty record; only inputs that parse to
a non-dict value produce `"{}"`. -/
theorem make_safe_payload_raises_on_unparseable :
    makeSafePayloadStr defaultSecret "not valid structured text".data = none ∧
    loads "not valid structured text".data = none ∧
    makeSafePayloadStr defaultSecret "[1, 2]".data = some ['{', '}'] :=
  ⟨by decide, rfl, by decide⟩

/-! ## Claim C3 — fail-fast configuration -/

/-- C3 counterexample: with `REDACTION_SECRET` absent the module binds the
built-in default key `"project-secret"` (a non-empty key, so every call
proceeds), and with the variable set to the empty string it runs with an
empty key — the engine never refuses to start. -/
theorem secret_fallback_counterexample :
    secretFromEnv none = strBytes "project-secret" ∧
    secretFromEnv none ≠ [] ∧
    secretFromEnv (some "") = [] :=
  ⟨rfl, by decide, rfl⟩

/-- C3 (amended): start-up never fails on a missing or empty key; a missing
`REDACTION_SECRET` silently selects the default key `"project-secret"`, with
which every tokenization call proceeds, and an empty value yields an empty
key. -/
theorem secret_startup_never_refuses :
    (∀ env, secretFromEnv env = strBytes (env.getD "project-secret")) ∧
    (∀ kind text, stableTag (secretFromEnv none) kind text = stableTag defaultSecret kind text) ∧
    secretFromEnv (some "") = [] :=
  ⟨fun _ => rfl, fun _ _ => rfl, rfl⟩

/-! ## Claim C4 — idempotence of scrubbing -/

/-- C4 counterexample: the account number `100004` is tokenized to
`[ACCT:048563]`, whose all-digit digest re-matches the ACCOUNT pattern, so a
second scrub rewrites it again — `scrub(scrub(s)) ≠ scrub(s)`. -/
theorem scrub_not_idempotent :
    scrubStr defaultSecret (scrubStr defaultSecret "100004".data) ≠
      scrubStr defaultSecret "100004".data ∧
    scrubStr defaultSecret "100004".data = "[ACCT:048563]".data ∧
    scrubStr defaultSecret (scrubStr defaultSecret "100004".data) =
      "[ACCT:[ACCT:24a443]]".data :=
  ⟨by decide, by decide, by decide⟩

/-- C4 (amended): re-scrubbing is the identity on every string whose scrubbed
form contains no further match of any of the seven patterns; idempotence
fails only when a scrub output still matches some pattern (as happens when an
emitted token digest consists solely of digits). -/
theorem scrub_idempotent_of_clean (secret : List Nat) (s : List Char)
    (h1 : findAux emailRe none (scrubStr secret s) = none)
    (h2 : findAux ssnRe none (scrubStr secret s) = none)
    (h3 : findAux cardRe none (scrubStr secret s) = none)
    (h4 : findAux acctRe none (scrubStr secret s) = none)
    (h5 : findAux ipRe none (scrubStr secret s) = none)
    (h6 : findAux urlRe none (scrubStr secret s) = none)
    (h7 : findAux domainRe none (scrubStr secret s) = none) :
    scrubStr secret (scrubStr secret s) = scrubStr secret s := by
  conv_lhs => rw [scrubStr]
  simp only [patternLib, List.foldl_cons, List.foldl_nil]
  rw [reSub_eq_of_find_none _ _ _ h1, reSub_eq_of_find_none _ _ _ h2,
      reSub_eq_of_find_none _ _ _ h3, reSub_eq_of_find_none _ _ _ h4,
      reSub_eq_of_find_none _ _ _ h5, reSub_eq_of_find_none _ _ _ h6,
      reSub_eq_of_find_none _ _ _ h7]

theorem scrub_idempotent_of_clean_witness :
    scrubStr defaultSecret (scrubStr defaultSecret "no findings today".data) =
      scrubStr defaultSecret "no findings today".data :=
  scrub_idempotent_of_clean defaultSecret "no findings today".data
    (by decide) (by decide) (by decide) (by decide) (by decide) (by decide) (by decide)

/-! ## Claim C5 — clean output / unmatchable token syntax -/

/-- C5 (refuted — code bug): scrubbing the account number `100034` emits the
token `[ACCT:305283]`; its six-hex-character digest happens to be all digits,
and that digest both occurs in the final scrub output and independently
matches the ACCOUNT pattern — the token syntax is not unmatchable. -/
theorem scrub_output_rematches_account :
    scrubStr defaultSecret "100034".data = "[ACCT:305283]".data ∧
    (findAux acctRe none (scrubStr defaultSecret "100034".data)).map (fun r => r.2.1) =
      some "305283".data ∧
    (findAux acctRe none "305283".data).isSome = true :=
  ⟨by decide, by decide, by decide⟩

/-! ## Claim C6 — structural isomorphism of the walker -/

/-- C6: `scrub` preserves the entire tree shape — `skeleton` erases only the
content of string leaves, and the skeletons of input and output agree, so key
lists (set and insertion order), sequence lengths and order, and all
non-string leaves are identical; numbers, booleans and null pass through
unchanged. -/
theorem scrub_structural_isomorphism (secret : List Nat) :
    (∀ j, skeleton (scrubJson secret j) = skeleton j) ∧
    (∀ n : Int, scrubJson secret (.num n) = .num n) ∧
    (∀ b, scrubJson secret (.bool b) = .bool b) ∧
    scrubJson secret .null = .null :=
  ⟨skeleton_scrubJson secret, fun _ => rfl, fun _ => rfl, rfl⟩

/-! ## Claim C7 — allowlist containment -/

/-- C7: a pair survives `allowlist` exactly when it is a pair of the input
whose key is in `ALLOWED_FIELDS`; values (hence nested mappings inside
allowed fields) are passed through untouched, and disallowed keys are
silently dropped. -/
theorem allowlist_containment :
    ∀ (l : List (List Char × Json)) (k : List Char) (v : Json),
      (k, v) ∈ allowlistFn l ↔ ((k, v) ∈ l ∧ k ∈ ALLOWED_FIELDS) := by
  intro l k v
  simp [allowlistFn, List.mem_filter]

theorem allowlist_containment_witness :
    ("case_id".data, Json.null) ∈
      allowlistFn [("case_id".data, Json.null), ("ip".data, Json.null)] :=
  (allowlist_containment _ _ _).mpr ⟨List.mem_cons_self _ _, by decide⟩

/-! ## Claim C8 — tokenizer determinism and format -/

/-- C8: for a fixed secret, `_stable_tag` is a pure function of
`(kind, text)` — equal arguments give the identical token — and the token is
exactly `[KIND:digest]` where the digest has exactly 6 characters, all
lowercase hexadecimal. -/
theorem stableTag_deterministic_format (secret : List Nat) (kind text : List Char) :
    stableTag secret kind text = '[' :: kind ++ ':' :: digestChars secret text ++ [']'] ∧
    (digestChars secret text).length = 6 ∧
    (∀ c ∈ digestChars secret text, isLowerHex c = true) ∧
    (∀ kind' text', kind' = kind → text' = text →
      stableTag secret kind' text' = stableTag secret kind text) :=
  ⟨rfl, digestChars_length secret text, digestChars_lower_hex secret text,
   fun _ _ hk ht => by rw [hk, ht]⟩

theorem stableTag_deterministic_format_witness :
    stableTag defaultSecret "ACCT".data "100004".data =
      stableTag defaultSecret "ACCT".data "100004".data ∧
    (digestChars defaultSecret "100004".data).length = 6 :=
  ⟨(stableTag_deterministic_format defaultSecret "ACCT".data "100004".data).2.2.2
      "ACCT".data "100004".data rfl rfl,
   (stableTag_deterministic_format defaultSecret "ACCT".data "100004".data).2.1⟩

/-! ## Claim C9 — pattern precedence -/

/-- C9: `_scrub_str` is the sequential composition of the seven substitutions
in the order EMAIL, SSN, CARD, ACCT, IP, URL, DOMAIN, each over the previous
pass's output; consequently a bare word-bounded run of 13–19 digits becomes a
CARD token while runs of 6–12 digits fall through to the ACCOUNT pattern
(shown for runs of the digit 4). -/
theorem scrub_pattern_precedence :
    (∀ (secret : List Nat) (s : List Char), scrubStr secret s =
        reSub domainRe (stableTag secret "DOMAIN".data)
          (reSub urlRe (stableTag secret "URL".data)
            (reSub ipRe (stableTag secret "IP".data)
              (reSub acctRe (stableTag secret "ACCT".data)
                (reSub cardRe (stableTag secret "CARD".data)
                  (reSub ssnRe (stableTag secret "SSN".data)
                    (reSub emailRe (stableTag secret "EMAIL".data) s))))))) ∧
    (∀ n, 13 ≤ n → n ≤ 19 → ∃ d,
        scrubStr defaultSecret (List.replicate n '4') =
          '[' :: "CARD:".data ++ d ++ [']'] ∧ d.length = 6) ∧
    (∀ n, 6 ≤ n → n ≤ 12 → ∃ d,
        scrubStr defaultSecret (List.replicate n '4') =
          '[' :: "ACCT:".data ++ d ++ [']'] ∧ d.length = 6) := by
  refine ⟨fun secret s => by simp only [scrubStr, patternLib, List.foldl_cons, List.foldl_nil], ?_, ?_⟩
  · intro n hn1 hn2
    interval_cases n
    · exact ⟨"87a364".data, by decide, by decide⟩
    · exact ⟨"ff03fe".data, by decide, by decide⟩
    · exact ⟨"cc1dd4".data, by decide, by decide⟩
    · exact ⟨"443e27".data, by decide, by decide⟩
    · exact ⟨"fe7701".data, by decide, by decide⟩
    · exact ⟨"11a736".data, by decide, by decide⟩
    · exact ⟨"64366c".data, by decide, by decide⟩
  · intro n hn1 hn2
    interval_cases n
    · exact ⟨"d082e5".data, by decide, by decide⟩
    · exact ⟨"4d3871".data, by decide, by decide⟩
    · exact ⟨"565e8c".data, by decide, by decide⟩
    · exact ⟨"c01b4a".data, by decide, by decide⟩
    · exact ⟨"29acea".data, by decide, by decide⟩
    · exact ⟨"630ad1".data, by decide, by decide⟩
    · exact ⟨"3f1393".data, by decide, by decide⟩

theorem scrub_pattern_precedence_witness :
    (∃ d, scrubStr defaultSecret (List.replicate 16 '4') =
        '[' :: "CARD:".data ++ d ++ [']'] ∧ d.length = 6) ∧
    (∃ d, scrubStr defaultSecret (List.replicate 8 '4') =
        '[' :: "ACCT:".data ++ d ++ [']'] ∧ d.length = 6) :=
  ⟨scrub_pattern_precedence.2.1 16 (by decide) (by decide),
   scrub_pattern_precedence.2.2 8 (by decide) (by decide)⟩

/-! ## Claim C10 — the Azure variant redacts by key name only -/

/-- C10: `local_guardrail_redact_json` replaces a value (wholly, by the
placeholder built from the upper-cased key) exactly when the lower-cased key
is in `SENSITIVE_KEYS`; a string under any other key is returned
byte-identical, and strings themselves are never content-scrubbed, so
sensitive substrings in free text pass through verbatim. -/
theorem azure_redact_key_based_only :
    (∀ s, redact (.str s) = .str s) ∧
    (∀ l k v, (k, v) ∈ l → toLowerL k ∈ SENSITIVE_KEYS →
      (k, Json.str (keyPlaceholder k)) ∈ redactPairs l) ∧
    (∀ l k s, (k, Json.str s) ∈ l → toLowerL k ∉ SENSITIVE_KEYS →
      (k, Json.str s) ∈ redactPairs l) := by
  refine ⟨fun _ => rfl, ?_, ?_⟩
  · intro l k v hmem hsens
    induction l with
    | nil => cases hmem
    | cons hd tl ih =>
        obtain ⟨k', v'⟩ := hd
        rw [redactPairs]
        rcases List.mem_cons.mp hmem with heq | htl
        · obtain ⟨rfl, rfl⟩ := Prod.mk.injEq .. ▸ And.intro (congrArg Prod.fst heq) (congrArg Prod.snd heq)
          rw [if_pos hsens]
          exact List.mem_cons_self _ _
        · exact List.mem_cons_of_mem _ (ih htl)
  · intro l k s hmem hsens
    induction l with
    | nil => cases hmem
    | cons hd tl ih =>
        obtain ⟨k', v'⟩ := hd
        rw [redactPairs]
        rcases List.mem_cons.mp hmem with heq | htl
        · obtain ⟨rfl, rfl⟩ := Prod.mk.injEq .. ▸ And.intro (congrArg Prod.fst heq) (congrArg Prod.snd heq)
          rw [if_neg hsens]
          exact List.mem_cons_self _ _
        · exact List.mem_cons_of_mem _ (ih htl)

/-- A free-text value with an embedded e-mail-like address and card number. -/
def azureDemoVal : List Char :=
  "contact jo".data ++ '@' :: "vx".data ++ '.' :: "example.com card 4111111111111111".data

theorem azure_redact_key_based_only_witness :
    ("summary".data, Json.str azureDemoVal) ∈
      redactPairs [("summary".data, Json.str azureDemoVal)] ∧
    ("ssn".data, Json.str (keyPlaceholder "ssn".data)) ∈
      redactPairs [("ssn".data, Json.str "123-45-6789".data)] :=
  ⟨azure_redact_key_based_only.2.2 _ "summary".data azureDemoVal
      (List.mem_cons_self _ _) (by decide),
   azure_redact_key_based_only.2.1 _ "ssn".data (Json.str "123-45-6789".data)
      (List.mem_cons_self _ _) (by decide)⟩

end AutoSAR
